import Mathlib

/-!
Verification of the AION MCP agent repository (Python sources under
`mcp_agent/`).  The development shallowly embeds the two flows the spec
documents:

* the request bridge (`mcp_agent/server/bridge.py`): input validation,
  recursive string sanitization, and dispatch to four mock handlers;
* the event recorder (`mcp_agent/agent_memory.py`): construction of the
  event record, the knowledge-base document, and the local wallet-keyed log.

Python strings are modelled as `List Char`; Python dicts as association
lists (Python dicts have unique keys, and every lookup in the sources is
modelled first-match, consistently).  `str.strip()` is modelled over the
ASCII whitespace characters; `str.lower()` as character-wise `Char.toLower`.
Timestamps (`datetime.now().isoformat()`) are nondeterministic, so every
function that embeds code mentioning one takes the timestamp string as an
explicit parameter.
-/

/-- A Python string, modelled as its list of characters. -/
abbrev PyStr := List Char

/-- The whitespace characters removed by Python `str.strip()` (ASCII range). -/
def isPySpace (c : Char) : Bool :=
  c ∈ [' ', '\t', '\n', '\r', '\x0b', '\x0c']

/-- bridge.py line 67: `dangerous_chars = ['<', '>', '&', '"', "'", '`']`.
The last three are written via `Char.ofNat` (34 = double quote,
39 = single quote, 96 = backtick). -/
def dangerous_chars : List Char :=
  ['<', '>', '&', Char.ofNat 34, Char.ofNat 39, Char.ofNat 96]

/-- One iteration of the loop in `sanitize_input`:
`data = data.replace(char, '')` — replacing a single character by the
empty string deletes every occurrence of it. -/
def removeChar (s : PyStr) (c : Char) : PyStr :=
  s.filter (fun x => x ≠ c)

/-- bridge.py lines 67-69: the `for char in dangerous_chars` loop. -/
def removeDangerous (s : PyStr) : PyStr :=
  dangerous_chars.foldl removeChar s

/-- Python `str.lstrip()` over the modelled whitespace set. -/
def pyLstrip (s : PyStr) : PyStr :=
  s.dropWhile isPySpace

/-- Python `str.rstrip()` over the modelled whitespace set. -/
def pyRstrip (s : PyStr) : PyStr :=
  (s.reverse.dropWhile isPySpace).reverse

/-- Python `str.strip()`: trim whitespace at both ends. -/
def pyStrip (s : PyStr) : PyStr :=
  pyRstrip (pyLstrip s)

/-- bridge.py line 70: `return data.strip()[:1000]` applied after the
character-removal loop — the whole string branch of `sanitize_input`. -/
def sanitizeStr (s : PyStr) : PyStr :=
  (pyStrip (removeDangerous s)).take 1000

/-- A JSON value as handled by the bridge (Python objects produced by
`json.loads`): strings, numbers, booleans, null, arrays, and objects
(association lists of string keys, unique in Python). -/
inductive JValue where
  | str : PyStr → JValue
  | num : Rat → JValue
  | bool : Bool → JValue
  | null : JValue
  | arr : List JValue → JValue
  | obj : List (PyStr × JValue) → JValue

mutual

/-- bridge.py lines 63-76, `AIONBridge.sanitize_input`: strings get the
character removal / strip / truncate treatment; dicts are rebuilt with the
same keys and sanitized values; lists element-wise; everything else is
returned unchanged. -/
def sanitize_input : JValue → JValue
  | .str s => .str (sanitizeStr s)
  | .num q => .num q
  | .bool b => .bool b
  | .null => .null
  | .arr xs => .arr (sanitizeList xs)
  | .obj kvs => .obj (sanitizeObj kvs)

/-- `[self.sanitize_input(item) for item in data]` (bridge.py line 74). -/
def sanitizeList : List JValue → List JValue
  | [] => []
  | x :: xs => sanitize_input x :: sanitizeList xs

/-- `{k: self.sanitize_input(v) for k, v in data.items()}` (bridge.py
line 72): keys are kept verbatim, only values are sanitized. -/
def sanitizeObj : List (PyStr × JValue) → List (PyStr × JValue)
  | [] => []
  | (k, v) :: kvs => (k, sanitize_input v) :: sanitizeObj kvs

end

/-- First-match lookup in an association list.  Python dict keys are
unique, so first-match agrees with Python `d[k]` / `k in d`; using the
same lookup everywhere keeps the model internally consistent. -/
def lookupKey : List (PyStr × JValue) → PyStr → Option JValue
  | [], _ => none
  | (k, v) :: rest, key => if k = key then some v else lookupKey rest key

/-- Python `d[k]` / `d.get(k)` on a JSON value known to be used as a dict;
yields `none` when the value is not a dict or the key is absent. -/
def getItem (v : JValue) (key : PyStr) : Option JValue :=
  match v with
  | .obj kvs => lookupKey kvs key
  | _ => none

/-- The keys of a JSON object, in order (`list(d.keys())`). -/
def objKeys (v : JValue) : List PyStr :=
  match v with
  | .obj kvs => kvs.map Prod.fst
  | _ => []

/-- The validation result of bridge.py `validate_input`:
`{"valid": ..., "errors": ...}`. -/
structure Validation where
  valid : Bool
  errors : List PyStr

/-- The four recognized operation names (bridge.py line 52). -/
def recognizedOps : List PyStr :=
  ["analyze".data, "predict".data, "optimize".data, "validate".data]

/-- bridge.py lines 40-61, `AIONBridge.validate_input`: a non-dict input
short-circuits with one error; otherwise the `operation` checks (required /
string / recognized) contribute at most one error, then the `params` check
(must be a dict if present) contributes at most one more; `valid` is
`len(errors) == 0`. -/
def validate_input (data : JValue) : Validation :=
  match data with
  | .obj kvs =>
    let opErrors : List PyStr :=
      match lookupKey kvs "operation".data with
      | none => ["Operation is required".data]
      | some (.str s) =>
          if s ∈ recognizedOps then [] else ["Invalid operation type".data]
      | some _ => ["Operation must be a string".data]
    let paramErrors : List PyStr :=
      match lookupKey kvs "params".data with
      | none => []
      | some (.obj _) => []
      | some _ => ["Parameters must be a dictionary".data]
    let errors := opErrors ++ paramErrors
    ⟨errors.isEmpty, errors⟩
  | _ => ⟨false, ["Input must be a dictionary".data]⟩

/-- Python `value == "literal"` where `value` is an arbitrary JSON value:
true exactly when `value` is the equal string. -/
def jvalIsStr (v : JValue) (s : PyStr) : Bool :=
  match v with
  | .str t => t = s
  | _ => false

/-- The four handlers of the bridge. -/
inductive Handler where
  | analyze
  | predict
  | optimize
  | validate
deriving DecidableEq

/-- The control-flow outcome of one `process_request` call:
validation failure (with the error list), a `KeyError` on
`sanitized_data["operation"]` (raises into the `except` clause), a handler
invocation on the sanitized params, or the `"Unknown operation"` fallback. -/
inductive Outcome where
  | invalid : List PyStr → Outcome
  | keyError : Outcome
  | run : Handler → JValue → Outcome
  | unknownOp : Outcome

/-- bridge.py lines 78-106, the control flow of
`AIONBridge.process_request`: validate, then sanitize, then read
`sanitized_data["operation"]` and `sanitized_data.get("params", {})`, then
the `if operation == "analyze" ... else` chain. -/
def dispatch (data : JValue) : Outcome :=
  let validation := validate_input data
  if validation.valid then
    let sanitized := sanitize_input data
    match getItem sanitized "operation".data with
    | none => .keyError
    | some operation =>
      let params := (getItem sanitized "params".data).getD (.obj [])
      if jvalIsStr operation "analyze".data then .run .analyze params
      else if jvalIsStr operation "predict".data then .run .predict params
      else if jvalIsStr operation "optimize".data then .run .optimize params
      else if jvalIsStr operation "validate".data then .run .validate params
      else .unknownOp
  else .invalid validation.errors

/-- bridge.py lines 121-133, `analyze_data`: the fixed mock payload, with
the `datetime.now().isoformat()` string passed in as `now`. -/
def analyze_data (now : PyStr) : JValue :=
  .obj [("market_trend".data, .str "bullish".data),
        ("volatility".data, .num 0.15),
        ("risk_score".data, .num 3.2),
        ("confidence".data, .num 0.85),
        ("timestamp".data, .str now)]

/-- bridge.py lines 135-148, `predict_yield`: the fixed mock payload. -/
def predict_yield (now : PyStr) : JValue :=
  .obj [("predicted_apy".data, .num 8.5),
        ("confidence_interval".data, .arr [.num 7.2, .num 9.8]),
        ("time_horizon".data, .str "30d".data),
        ("model_accuracy".data, .num 0.92),
        ("timestamp".data, .str now)]

/-- bridge.py lines 150-166, `optimize_strategy`: the fixed mock payload. -/
def optimize_strategy (now : PyStr) : JValue :=
  .obj [("recommended_allocation".data,
          .obj [("venus".data, .num 0.4),
                ("beefy".data, .num 0.35),
                ("pancakeswap".data, .num 0.25)]),
        ("expected_apy".data, .num 9.2),
        ("risk_score".data, .num 2.8),
        ("rebalance_frequency".data, .str "weekly".data),
        ("timestamp".data, .str now)]

/-- bridge.py lines 168-184, `validate_strategy`: the fixed mock payload. -/
def validate_strategy (now : PyStr) : JValue :=
  .obj [("valid".data, .bool true),
        ("score".data, .num 8.7),
        ("warnings".data, .arr []),
        ("recommendations".data,
          .arr [.str "Consider diversifying across more protocols".data,
                .str "Monitor gas costs during high network congestion".data]),
        ("timestamp".data, .str now)]

/-- Run the selected handler (each ignores its `params` argument in the
sources and returns its fixed payload). -/
def runHandler (h : Handler) (now : PyStr) : JValue :=
  match h with
  | .analyze => analyze_data now
  | .predict => predict_yield now
  | .optimize => optimize_strategy now
  | .validate => validate_strategy now

/-- The JSON response written by `process_request`.  The `keyError`
branch models the `except` clause applied to `KeyError('operation')`,
whose `str(e)` renders as `'operation'` in quotes. -/
def process_request (now : PyStr) (data : JValue) : JValue :=
  match dispatch data with
  | .invalid errors =>
      .obj [("success".data, .bool false),
            ("error".data, .str "Validation failed".data),
            ("details".data, .arr (errors.map .str))]
  | .keyError =>
      .obj [("success".data, .bool false),
            ("error".data,
              .str (Char.ofNat 39 :: "operation".data ++ [Char.ofNat 39])),
            ("timestamp".data, .str now)]
  | .run h _ =>
      .obj [("success".data, .bool true),
            ("data".data, runHandler h now)]
  | .unknownOp =>
      .obj [("success".data, .bool false),
            ("error".data, .str "Unknown operation".data)]

/-- The process-wide bridge state (bridge.py `__init__`):
`initialized`, `error_count`, `max_errors`. -/
structure BridgeState where
  initialized : Bool
  error_count : Nat
  max_errors : Nat
deriving DecidableEq

/-- `AIONBridge()` at process start: `initialized = False`,
`error_count = 0`, `max_errors = 100`. -/
def initialState : BridgeState :=
  ⟨false, 0, 100⟩

/-- The operations a caller can perform on one bridge instance;
`processRequest raised` records whether the dispatch raised an exception
(the `except` clause ran). -/
inductive BridgeOp where
  | init
  | processRequest (raised : Bool)
  | healthQuery

/-- The state change of each bridge operation: `init` (the bridge's initialization) sets the flag,
a dispatch that raised runs `self.error_count += 1` (bridge.py line 111); no
operation ever writes `error_count` otherwise, and `max_errors` is never
written after `__init__`. -/
def stepOp (st : BridgeState) : BridgeOp → BridgeState
  | .init => { st with initialized := true }
  | .processRequest true => { st with error_count := st.error_count + 1 }
  | .processRequest false => st
  | .healthQuery => st

/-- A whole process lifetime: the operations executed in order from the
freshly constructed state. -/
def runOps (ops : List BridgeOp) : BridgeState :=
  ops.foldl stepOp initialState

/-- bridge.py lines 200-208, `get_health_status`. -/
def get_health_status (st : BridgeState) (now : PyStr) : JValue :=
  .obj [("initialized".data, .bool st.initialized),
        ("error_count".data, .num st.error_count),
        ("max_errors".data, .num st.max_errors),
        ("healthy".data, .bool (decide (st.error_count < st.max_errors))),
        ("timestamp".data, .str now)]

/-- Python `str.lower()`, character-wise (ASCII-faithful). -/
def pyLower (s : PyStr) : PyStr :=
  s.map Char.toLower

/-- agent_memory.py lines 36-46: the content of the `Message` sent to the
durable-memory collaborator,
`f"User performed {action} of {amount} BNB with strategy {strategy}"`. -/
def msgContent (action amount strategy : PyStr) : PyStr :=
  "User performed ".data ++ action ++ " of ".data ++ amount ++
    " BNB with strategy ".data ++ strategy

/-- agent_memory.py lines 40-46: the metadata dict shared by the message
and the local event record. -/
def msgMetadata (wallet action strategy amount : PyStr) : List (PyStr × JValue) :=
  [("wallet".data, .str wallet),
   ("strategy".data, .str strategy),
   ("amount".data, .str amount),
   ("last_action".data, .str (pyLower action))]

/-- agent_memory.py lines 50-52: the content of the `Document` forwarded
to the knowledge base,
`f"Executed {strategy} strategy via {action} of {amount} BNB"`. -/
def kbDocContent (action strategy amount : PyStr) : PyStr :=
  "Executed ".data ++ strategy ++ " strategy via ".data ++ action ++
    " of ".data ++ amount ++ " BNB".data

/-- agent_memory.py line 52: the metadata of the knowledge-base document,
`{"wallet": wallet, "action": action, "source": "AinonAgent"}`. -/
def kbDocMetadata (wallet action : PyStr) : List (PyStr × JValue) :=
  [("wallet".data, .str wallet),
   ("action".data, .str action),
   ("source".data, .str "AinonAgent".data)]

/-- agent_memory.py lines 57-68: the `event` dict appended to the local
log, `{"content": msg.content, "role": msg.role, "metadata": msg.metadata,
"created_at": ...}` with `role = "assistant"`; `created_at` comes from the
message's creation timestamp (or the current UTC time), passed in here. -/
def eventRecord (wallet action strategy amount created_at : PyStr) : JValue :=
  .obj [("content".data, .str (msgContent action amount strategy)),
        ("role".data, .str "assistant".data),
        ("metadata".data, .obj (msgMetadata wallet action strategy amount)),
        ("created_at".data, .str created_at)]

/-- The in-memory `local_memory` mapping, wallet to list of events. -/
abbrev LocalLog := List (PyStr × List JValue)

/-- First-match lookup of a wallet's event list. -/
def logLookup : LocalLog → PyStr → Option (List JValue)
  | [], _ => none
  | (k, v) :: rest, key => if k = key then some v else logLookup rest key

/-- agent_memory.py lines 70-73: `if wallet not in local_memory:
local_memory[wallet] = []` then `local_memory[wallet].append(event)` — the
wallet's entry gets the event appended in place; a missing wallet key is
inserted at the end (Python dict insertion order). -/
def logAppend : LocalLog → PyStr → JValue → LocalLog
  | [], w, e => [(w, [e])]
  | (k, v) :: rest, w, e =>
    if k = w then (k, v ++ [e]) :: rest
    else (k, v) :: logAppend rest w e

/-- agent_memory.py lines 34-74, `save_to_membase`, restricted to the data
it constructs and the local-log update (the two collaborator calls carry
`msgContent`/`msgMetadata` and `kbDocContent`/`kbDocMetadata` as defined
above): returns the updated local log. -/
def save_to_membase (log : LocalLog)
    (wallet action strategy amount created_at : PyStr) : LocalLog :=
  logAppend log wallet (eventRecord wallet action strategy amount created_at)

/-- A string leaf is clean when it has none of the six dangerous
characters and is at most 1000 characters long. -/
def cleanStr (s : PyStr) : Bool :=
  s.all (fun c => decide (c ∉ dangerous_chars)) && decide (s.length ≤ 1000)

mutual

/-- Every string leaf reachable through arrays and object *values* is
clean.  Object keys are not string leaves: `sanitize_input` never touches
them (see `sanitizeObj`). -/
def cleanVal : JValue → Bool
  | .str s => cleanStr s
  | .num _ => true
  | .bool _ => true
  | .null => true
  | .arr xs => cleanValList xs
  | .obj kvs => cleanValObj kvs

def cleanValList : List JValue → Bool
  | [] => true
  | x :: xs => cleanVal x && cleanValList xs

def cleanValObj : List (PyStr × JValue) → Bool
  | [] => true
  | (_, v) :: kvs => cleanVal v && cleanValObj kvs

end

/-- A 1001-character string with no dangerous character and no whitespace
at either end: one `a`, 999 spaces, one `b`.  Truncation to 1000 characters
cuts the final `b` and exposes the run of spaces as a new trailing end. -/
def c1Bad : PyStr :=
  'a' :: (List.replicate 999 ' ' ++ ['b'])

/-- The knowledge-document content as the spec words it, amended with the
trailing `" BNB"` that the source f-string appends:
`"Executed {strategy} strategy via {action} of {amount} BNB"`. -/
def specKbContent (action strategy amount : PyStr) : PyStr :=
  "Executed ".data ++ (strategy ++ (" strategy via ".data ++ (action ++
    (" of ".data ++ (amount ++ " BNB".data)))))

/-- The knowledge-document metadata as the spec words it:
`{wallet, action, source: constant}` with the constant `"AinonAgent"`. -/
def specKbMetadata (wallet action : PyStr) : List (PyStr × JValue) :=
  [("wallet".data, .str wallet),
   ("action".data, .str action),
   ("source".data, .str "AinonAgent".data)]

/-- The request `{"operation": "analyze", "params": {}}`. -/
def analyzeRequest : JValue :=
  .obj [("operation".data, .str "analyze".data),
        ("params".data, .obj [])]

theorem mem_foldl_removeChar (cs : List Char) (s : PyStr) (c : Char) :
    c ∈ cs.foldl removeChar s ↔ c ∈ s ∧ c ∉ cs := by
  induction cs generalizing s with
  | nil => simp
  | cons d cs ih =>
    rw [List.foldl_cons, ih]
    simp only [removeChar, List.mem_filter, decide_eq_true_eq, List.mem_cons]
    tauto

theorem foldl_removeChar_eq_self (cs : List Char) (s : PyStr)
    (h : ∀ c ∈ s, c ∉ cs) : cs.foldl removeChar s = s := by
  induction cs generalizing s with
  | nil => rfl
  | cons d cs ih =>
    rw [List.foldl_cons]
    have h1 : removeChar s d = s := by
      refine List.filter_eq_self.mpr (fun c hc => ?_)
      have hd : c ≠ d := fun hcd => h c hc (by simp [hcd])
      simpa using hd
    rw [h1]
    exact ih s (fun c hc hm => h c hc (by simp [hm]))

theorem mem_removeDangerous (s : PyStr) (c : Char) :
    c ∈ removeDangerous s ↔ c ∈ s ∧ c ∉ dangerous_chars :=
  mem_foldl_removeChar dangerous_chars s c

theorem removeDangerous_eq_self (s : PyStr)
    (h : ∀ c ∈ s, c ∉ dangerous_chars) : removeDangerous s = s :=
  foldl_removeChar_eq_self dangerous_chars s h

/-- The string has no leading `isPySpace` character. -/
def noLeadSpace (s : PyStr) : Prop :=
  ∀ c, s.head? = some c → isPySpace c = false

theorem head?_dropWhile_false (p : Char → Bool) (l : List Char) (c : Char)
    (h : (l.dropWhile p).head? = some c) : p c = false := by
  induction l with
  | nil => simp at h
  | cons a as ih =>
    by_cases ha : p a
    · rw [List.dropWhile_cons_of_pos ha] at h
      exact ih h
    · rw [List.dropWhile_cons_of_neg ha] at h
      simp at h
      simpa [← h] using ha

theorem noLeadSpace_pyLstrip (s : PyStr) : noLeadSpace (pyLstrip s) :=
  fun c hc => head?_dropWhile_false isPySpace s c hc

theorem noLeadSpace_of_prefix (t s : PyStr) (hp : t <+: s)
    (h : noLeadSpace s) : noLeadSpace t := by
  intro c hc
  match t, hc with
  | a :: t', hc =>
    obtain ⟨r, hr⟩ := hp
    simp at hc
    exact h c (by rw [← hr, ← hc]; rfl)

theorem pyLstrip_eq_self (s : PyStr) (h : noLeadSpace s) :
    pyLstrip s = s := by
  match s with
  | [] => rfl
  | a :: as =>
    have ha : isPySpace a = false := h a rfl
    simp [pyLstrip, List.dropWhile_cons, ha]

theorem pyRstrip_prefix_self (s : PyStr) : pyRstrip s <+: s := by
  have h1 : (pyRstrip s).reverse <:+ s.reverse := by
    simpa [pyRstrip] using List.dropWhile_suffix isPySpace (l := s.reverse)
  exact List.reverse_suffix.mp h1

theorem dropWhile_idem (p : Char → Bool) (l : List Char) :
    (l.dropWhile p).dropWhile p = l.dropWhile p := by
  match hd : l.dropWhile p with
  | [] => rfl
  | a :: as =>
    have ha : p a = false := by
      apply head?_dropWhile_false p l
      rw [hd]; rfl
    rw [List.dropWhile_cons_of_neg (by simp [ha])]

theorem pyRstrip_idem (s : PyStr) : pyRstrip (pyRstrip s) = pyRstrip s := by
  simp [pyRstrip, dropWhile_idem]

theorem pyRstrip_subset (s : PyStr) : ∀ c ∈ pyRstrip s, c ∈ s :=
  fun _ hc => (pyRstrip_prefix_self s).subset hc

theorem pyStrip_eq_pyRstrip (s : PyStr) (h : noLeadSpace s) :
    pyStrip s = pyRstrip s := by
  rw [pyStrip, pyLstrip_eq_self s h]

/-- The invariant established by one pass of the string branch of
`sanitize_input`: no dangerous characters, no leading whitespace, and
length at most 1000. -/
def sanitized (s : PyStr) : Prop :=
  (∀ c ∈ s, c ∉ dangerous_chars) ∧ noLeadSpace s ∧ s.length ≤ 1000

theorem sanitizeStr_subset_removeDangerous (s : PyStr) :
    ∀ c ∈ sanitizeStr s, c ∈ removeDangerous s := by
  intro c hc
  have h1 : c ∈ pyStrip (removeDangerous s) :=
    (List.take_prefix 1000 _).subset hc
  have h2 : c ∈ pyLstrip (removeDangerous s) := pyRstrip_subset _ c h1
  exact (List.dropWhile_suffix isPySpace).subset h2

theorem sanitized_sanitizeStr (s : PyStr) : sanitized (sanitizeStr s) := by
  refine ⟨?_, ?_, ?_⟩
  · intro c hc
    exact ((mem_removeDangerous s c).mp
      (sanitizeStr_subset_removeDangerous s c hc)).2
  · have h1 : noLeadSpace (pyLstrip (removeDangerous s)) :=
      noLeadSpace_pyLstrip _
    have h2 : noLeadSpace (pyStrip (removeDangerous s)) :=
      noLeadSpace_of_prefix _ _ (pyRstrip_prefix_self _) h1
    exact noLeadSpace_of_prefix _ _ (List.take_prefix 1000 _) h2
  · exact List.length_take_le 1000 _

theorem sanitizeStr_of_sanitized (t : PyStr) (h : sanitized t) :
    sanitizeStr t = pyRstrip t := by
  obtain ⟨hclean, hlead, hlen⟩ := h
  rw [sanitizeStr, removeDangerous_eq_self t hclean,
    pyStrip_eq_pyRstrip t hlead]
  exact List.take_of_length_le
    (le_trans (pyRstrip_prefix_self t).length_le hlen)

theorem sanitized_pyRstrip (t : PyStr) (h : sanitized t) :
    sanitized (pyRstrip t) := by
  obtain ⟨hclean, hlead, hlen⟩ := h
  exact ⟨fun c hc => hclean c (pyRstrip_subset t c hc),
    noLeadSpace_of_prefix _ _ (pyRstrip_prefix_self t) hlead,
    le_trans (pyRstrip_prefix_self t).length_le hlen⟩

theorem sanitizeStr_idem_of_sanitized (t : PyStr) (h : sanitized t) :
    sanitizeStr (sanitizeStr t) = sanitizeStr t := by
  rw [sanitizeStr_of_sanitized t h,
    sanitizeStr_of_sanitized _ (sanitized_pyRstrip t h), pyRstrip_idem]

theorem sanitizeStr_double_idem (s : PyStr) :
    sanitizeStr (sanitizeStr (sanitizeStr s)) = sanitizeStr (sanitizeStr s) :=
  sanitizeStr_idem_of_sanitized (sanitizeStr s) (sanitized_sanitizeStr s)

theorem cleanStr_sanitizeStr (s : PyStr) : cleanStr (sanitizeStr s) = true := by
  obtain ⟨hclean, _, hlen⟩ := sanitized_sanitizeStr s
  simp only [cleanStr, Bool.and_eq_true, List.all_eq_true, decide_eq_true_eq]
  exact ⟨hclean, hlen⟩

mutual

theorem cleanVal_sanitize : ∀ v : JValue, cleanVal (sanitize_input v) = true
  | .str s => by simp [sanitize_input, cleanVal, cleanStr_sanitizeStr]
  | .num _ => rfl
  | .bool _ => rfl
  | .null => rfl
  | .arr xs => by
      simp only [sanitize_input, cleanVal]
      exact cleanValList_sanitize xs
  | .obj kvs => by
      simp only [sanitize_input, cleanVal]
      exact cleanValObj_sanitize kvs

theorem cleanValList_sanitize : ∀ xs : List JValue,
    cleanValList (sanitizeList xs) = true
  | [] => rfl
  | x :: xs => by
      simp only [sanitizeList, cleanValList, Bool.and_eq_true]
      exact ⟨cleanVal_sanitize x, cleanValList_sanitize xs⟩

theorem cleanValObj_sanitize : ∀ kvs : List (PyStr × JValue),
    cleanValObj (sanitizeObj kvs) = true
  | [] => rfl
  | (_, v) :: kvs => by
      simp only [sanitizeObj, cleanValObj, Bool.and_eq_true]
      exact ⟨cleanVal_sanitize v, cleanValObj_sanitize kvs⟩

end

mutual

theorem sanitize_input_triple : ∀ v : JValue,
    sanitize_input (sanitize_input (sanitize_input v)) =
      sanitize_input (sanitize_input v)
  | .str s => by simp [sanitize_input, sanitizeStr_double_idem]
  | .num _ => rfl
  | .bool _ => rfl
  | .null => rfl
  | .arr xs => by
      simp only [sanitize_input]
      rw [sanitizeList_triple xs]
  | .obj kvs => by
      simp only [sanitize_input]
      rw [sanitizeObj_triple kvs]

theorem sanitizeList_triple : ∀ xs : List JValue,
    sanitizeList (sanitizeList (sanitizeList xs)) =
      sanitizeList (sanitizeList xs)
  | [] => rfl
  | x :: xs => by
      simp only [sanitizeList]
      rw [sanitize_input_triple x, sanitizeList_triple xs]

theorem sanitizeObj_triple : ∀ kvs : List (PyStr × JValue),
    sanitizeObj (sanitizeObj (sanitizeObj kvs)) =
      sanitizeObj (sanitizeObj kvs)
  | [] => rfl
  | (k, v) :: kvs => by
      simp only [sanitizeObj]
      rw [sanitize_input_triple v, sanitizeObj_triple kvs]

end

theorem sanitizeObj_keys (kvs : List (PyStr × JValue)) :
    (sanitizeObj kvs).map Prod.fst = kvs.map Prod.fst := by
  induction kvs with
  | nil => rfl
  | cons kv rest ih =>
    obtain ⟨k, v⟩ := kv
    simp only [sanitizeObj, List.map_cons, ih]

theorem lookupKey_sanitizeObj (kvs : List (PyStr × JValue)) (key : PyStr) :
    lookupKey (sanitizeObj kvs) key =
      (lookupKey kvs key).map sanitize_input := by
  induction kvs with
  | nil => rfl
  | cons kv rest ih =>
    obtain ⟨k, v⟩ := kv
    by_cases hk : k = key
    · simp [sanitizeObj, lookupKey, hk]
    · simp [sanitizeObj, lookupKey, hk, ih]

theorem validate_valid_structure (data : JValue)
    (h : (validate_input data).valid = true) :
    ∃ kvs s, data = .obj kvs ∧
      lookupKey kvs "operation".data = some (.str s) ∧
      s ∈ recognizedOps := by
  match data with
  | .str _ | .num _ | .bool _ | .null | .arr _ => simp [validate_input] at h
  | .obj kvs =>
    refine ⟨kvs, ?_⟩
    simp only [validate_input, List.isEmpty_eq_true, List.append_eq_nil] at h
    obtain ⟨hop, -⟩ := h
    match hlk : lookupKey kvs "operation".data with
    | none => rw [hlk] at hop; simp at hop
    | some (.str s) =>
      rw [hlk] at hop
      by_cases hs : s ∈ recognizedOps
      · exact ⟨s, rfl, rfl, hs⟩
      · simp [hs] at hop
    | some (.num _) | some (.bool _) | some .null
    | some (.arr _) | some (.obj _) => rw [hlk] at hop; simp at hop

theorem logLookup_logAppend_self (log : LocalLog) (w : PyStr) (e : JValue) :
    logLookup (logAppend log w e) w =
      some ((logLookup log w).getD [] ++ [e]) := by
  induction log with
  | nil => simp [logAppend, logLookup]
  | cons kv rest ih =>
    obtain ⟨k, v⟩ := kv
    by_cases hk : k = w
    · simp [logAppend, logLookup, hk]
    · simp [logAppend, logLookup, hk, ih]

theorem logLookup_logAppend_other (log : LocalLog) (w w' : PyStr) (e : JValue)
    (h : w' ≠ w) :
    logLookup (logAppend log w e) w' = logLookup log w' := by
  have hw : ¬ w = w' := fun hw => h hw.symm
  induction log with
  | nil => simp [logAppend, logLookup, hw]
  | cons kv rest ih =>
    obtain ⟨k, v⟩ := kv
    by_cases hk : k = w
    · simp [logAppend, logLookup, hk, hw]
    · by_cases hk' : k = w'
      · subst hk'
        simp [logAppend, logLookup, hk, logLookup]
      · simp [logAppend, logLookup, hk, hk', ih]

set_option maxRecDepth 10000

/-- C1 counterexample: sanitization is NOT idempotent.  On the 1001-character
string `a` + 999 spaces + `b` (no dangerous characters, no surrounding
whitespace), the first pass truncates away the final `b`, leaving 999
trailing spaces; the second pass strips them, returning just `a`. -/
theorem c1_sanitize_not_idempotent :
    sanitize_input (sanitize_input (.str c1Bad)) ≠ sanitize_input (.str c1Bad) := by
  simp only [sanitize_input, ne_eq, JValue.str.injEq]
  decide

/-- C1 (amended): sanitization is idempotent from the second application
onward — for every JSON value `v`,
`sanitize_input (sanitize_input (sanitize_input v)) =
sanitize_input (sanitize_input v)`; a single application is not a fixed
point in general because truncation to 1000 characters can expose trailing
whitespace that only the next pass strips. -/
theorem c1_sanitize_idempotent_from_second (v : JValue) :
    sanitize_input (sanitize_input (sanitize_input v)) =
      sanitize_input (sanitize_input v) :=
  sanitize_input_triple v

/-- C2: after sanitization, every string leaf (string values reachable
through arrays and object values) contains none of the six dangerous
characters and has length at most 1000, recursively through nested
mappings and sequences. -/
theorem c2_sanitize_output_clean (v : JValue) :
    cleanVal (sanitize_input v) = true :=
  cleanVal_sanitize v

/-- C9: `sanitize_input` sanitizes only the values of a mapping — the key
list of the result is exactly the key list of the input, whatever
characters the keys contain and whatever their length. -/
theorem c9_sanitize_preserves_keys (kvs : List (PyStr × JValue)) :
    objKeys (sanitize_input (.obj kvs)) = kvs.map Prod.fst := by
  simp only [sanitize_input, objKeys]
  exact sanitizeObj_keys kvs

/-- C4 counterexample: the knowledge-base document content is NOT
`"Executed {strategy} strategy via {action} of {amount}"`: at
strategy `auto_yield`, action `deposit`, amount `0.005` the code produces
`"Executed auto_yield strategy via deposit of 0.005 BNB"`, which carries a
trailing `" BNB"` the claim omits. -/
theorem c4_kb_content_counterexample :
    kbDocContent "deposit".data "auto_yield".data "0.005".data ≠
      "Executed auto_yield strategy via deposit of 0.005".data := by
  decide

/-- C4 (amended): for every call, the knowledge-base document has content
exactly `"Executed {strategy} strategy via {action} of {amount} BNB"`
(with the trailing `" BNB"` the source f-string appends) and metadata
`{wallet, action, source: "AinonAgent"}`. -/
theorem c4_kb_document_amended (wallet action strategy amount : PyStr) :
    kbDocContent action strategy amount =
      specKbContent action strategy amount ∧
    kbDocMetadata wallet action = specKbMetadata wallet action := by
  refine ⟨?_, rfl⟩
  simp [kbDocContent, specKbContent]

/-- C6 counterexample: the event record appended to the local log has no
top-level `wallet` field (nor `action`, `strategy`, `amount`): looking up
`"wallet"` in a concrete appended record yields nothing. -/
theorem c6_event_no_wallet_field :
    getItem (eventRecord "0xABC".data "deposit".data "auto_yield".data
      "0.005".data "2025-01-01T00:00:00+00:00".data) "wallet".data = none := rfl

/-- C6 (amended): every event record appended to the local log is a
mapping with exactly the fields `content` (the derived human-readable
string), `role` (the constant `"assistant"`), `metadata`
`{wallet, strategy, amount, last_action = lowercased action}`, and
`created_at` (the message timestamp); `wallet`, `strategy` and `amount`
appear only inside `metadata`, and `action` only as the lowercased
`last_action`. -/
theorem c6_event_record_amended (w a s amt t : PyStr) :
    objKeys (eventRecord w a s amt t) =
      ["content".data, "role".data, "metadata".data, "created_at".data] ∧
    getItem (eventRecord w a s amt t) "content".data =
      some (.str (msgContent a amt s)) ∧
    getItem (eventRecord w a s amt t) "role".data =
      some (.str "assistant".data) ∧
    getItem (eventRecord w a s amt t) "metadata".data =
      some (.obj (msgMetadata w a s amt)) ∧
    getItem (eventRecord w a s amt t) "created_at".data = some (.str t) ∧
    objKeys (.obj (msgMetadata w a s amt)) =
      ["wallet".data, "strategy".data, "amount".data, "last_action".data] ∧
    lookupKey (msgMetadata w a s amt) "last_action".data =
      some (.str (pyLower a)) :=
  ⟨rfl, rfl, rfl, rfl, rfl, rfl, rfl⟩

/-- C7: for the request `{"operation": "analyze", "params": {}}`,
`process_request` returns `{success: true, data: d}` with `d` the analyze
payload, whose key set includes `market_trend`, `volatility`,
`risk_score`, `confidence` and `timestamp` (whatever the timestamp). -/
theorem c7_analyze_request_response (now : PyStr) :
    process_request now analyzeRequest =
      .obj [("success".data, .bool true), ("data".data, analyze_data now)] ∧
    "market_trend".data ∈ objKeys (analyze_data now) ∧
    "volatility".data ∈ objKeys (analyze_data now) ∧
    "risk_score".data ∈ objKeys (analyze_data now) ∧
    "confidence".data ∈ objKeys (analyze_data now) ∧
    "timestamp".data ∈ objKeys (analyze_data now) := by
  refine ⟨rfl, ?_, ?_, ?_, ?_, ?_⟩ <;> simp [analyze_data, objKeys]

/-- The bridge state's `max_errors` field is never written after
construction: any operation sequence preserves it. -/
theorem foldl_stepOp_max_errors (ops : List BridgeOp) (st : BridgeState) :
    (ops.foldl stepOp st).max_errors = st.max_errors := by
  induction ops generalizing st with
  | nil => rfl
  | cons op rest ih =>
    rw [List.foldl_cons, ih]
    cases op with
    | init => rfl
    | processRequest raised => cases raised <;> rfl
    | healthQuery => rfl

/-- C8: (i) a dispatch that raised increments `error_count` by exactly
one; (ii) no bridge operation ever decreases `error_count`; (iii) after
any operation sequence from the fresh state, the health status reports
`healthy = (error_count < 100)` — the constant `max_errors` — so it turns
false exactly once 100 failures have accumulated. -/
theorem c8_error_counter_invariants :
    (∀ st : BridgeState,
      (stepOp st (.processRequest true)).error_count = st.error_count + 1) ∧
    (∀ (st : BridgeState) (op : BridgeOp),
      st.error_count ≤ (stepOp st op).error_count) ∧
    (∀ (ops : List BridgeOp) (now : PyStr),
      getItem (get_health_status (runOps ops) now) "healthy".data =
        some (.bool (decide ((runOps ops).error_count < 100)))) := by
  refine ⟨fun st => rfl, fun st op => ?_, fun ops now => ?_⟩
  · cases op with
    | init => exact Nat.le_refl _
    | healthQuery => exact Nat.le_refl _
    | processRequest raised =>
      cases raised with
      | false => exact Nat.le_refl _
      | true => exact Nat.le_succ _
  · have hmax : (runOps ops).max_errors = 100 :=
      foldl_stepOp_max_errors ops initialState
    have hget : getItem (get_health_status (runOps ops) now) "healthy".data =
        some (.bool (decide
          ((runOps ops).error_count < (runOps ops).max_errors))) := rfl
    rw [hget, hmax]

/-- C3: for every request mapping without an `"operation"` key, the bridge
fails validation with an error list containing `"Operation is required"`,
`process_request` returns `{success: false, error: "Validation failed",
details: errors}`, and no handler is dispatched. -/
theorem c3_missing_operation (kvs : List (PyStr × JValue)) (now : PyStr)
    (h : lookupKey kvs "operation".data = none) :
    ∃ errs, dispatch (.obj kvs) = .invalid errs ∧
      "Operation is required".data ∈ errs ∧
      process_request now (.obj kvs) =
        .obj [("success".data, .bool false),
              ("error".data, .str "Validation failed".data),
              ("details".data, .arr (errs.map .str))] ∧
      ∀ (hd : Handler) (p : JValue), dispatch (.obj kvs) ≠ .run hd p := by
  obtain ⟨errs, hv, hmem⟩ :
      ∃ errs, validate_input (.obj kvs) = ⟨false, errs⟩ ∧
        "Operation is required".data ∈ errs := by
    match hp : lookupKey kvs "params".data with
    | none =>
      exact ⟨["Operation is required".data],
        by simp [validate_input, h, hp], by simp⟩
    | some (.obj pkvs) =>
      exact ⟨["Operation is required".data],
        by simp [validate_input, h, hp], by simp⟩
    | some (.str s) =>
      exact ⟨["Operation is required".data,
        "Parameters must be a dictionary".data],
        by simp [validate_input, h, hp], by simp⟩
    | some (.num q) =>
      exact ⟨["Operation is required".data,
        "Parameters must be a dictionary".data],
        by simp [validate_input, h, hp], by simp⟩
    | some (.bool b) =>
      exact ⟨["Operation is required".data,
        "Parameters must be a dictionary".data],
        by simp [validate_input, h, hp], by simp⟩
    | some .null =>
      exact ⟨["Operation is required".data,
        "Parameters must be a dictionary".data],
        by simp [validate_input, h, hp], by simp⟩
    | some (.arr xs) =>
      exact ⟨["Operation is required".data,
        "Parameters must be a dictionary".data],
        by simp [validate_input, h, hp], by simp⟩
  have hdis : dispatch (.obj kvs) = .invalid errs := by
    simp [dispatch, hv]
  refine ⟨errs, hdis, hmem, ?_, ?_⟩
  · simp [process_request, hdis]
  · intro hd p hcon
    rw [hdis] at hcon
    exact Outcome.noConfusion hcon

/-- Witness for C3 at the empty request mapping `{}`. -/
theorem c3_missing_operation_witness :
    ∃ errs, dispatch (.obj ([] : List (PyStr × JValue))) = .invalid errs ∧
      "Operation is required".data ∈ errs ∧
      process_request "2025-01-01".data (.obj []) =
        .obj [("success".data, .bool false),
              ("error".data, .str "Validation failed".data),
              ("details".data, .arr (errs.map .str))] ∧
      ∀ (hd : Handler) (p : JValue), dispatch (.obj []) ≠ .run hd p :=
  c3_missing_operation [] "2025-01-01".data rfl

/-- C5: recording an event for wallet `"0xABC"` with action `"deposit"`,
strategy `"auto_yield"`, amount `"0.005"` appends exactly one entry to the
wallet's list in the local log (creating the key if absent); the entry's
`content` is `"User performed deposit of 0.005 BNB with strategy
auto_yield"` and its `metadata.last_action` is `"deposit"`; the lists of
all other wallets are unchanged. -/
theorem c5_record_deposit_event (log : LocalLog) (created : PyStr) :
    logLookup (save_to_membase log "0xABC".data "deposit".data
        "auto_yield".data "0.005".data created) "0xABC".data =
      some ((logLookup log "0xABC".data).getD [] ++
        [eventRecord "0xABC".data "deposit".data "auto_yield".data
          "0.005".data created]) ∧
    getItem (eventRecord "0xABC".data "deposit".data "auto_yield".data
        "0.005".data created) "content".data =
      some (.str
        "User performed deposit of 0.005 BNB with strategy auto_yield".data) ∧
    getItem (eventRecord "0xABC".data "deposit".data "auto_yield".data
        "0.005".data created) "metadata".data =
      some (.obj (msgMetadata "0xABC".data "deposit".data "auto_yield".data
        "0.005".data)) ∧
    lookupKey (msgMetadata "0xABC".data "deposit".data "auto_yield".data
        "0.005".data) "last_action".data = some (.str "deposit".data) ∧
    ∀ w', w' ≠ "0xABC".data →
      logLookup (save_to_membase log "0xABC".data "deposit".data
        "auto_yield".data "0.005".data created) w' = logLookup log w' := by
  refine ⟨logLookup_logAppend_self log _ _, rfl, rfl, rfl, ?_⟩
  intro w' hw'
  exact logLookup_logAppend_other log _ w' _ hw'

/-- Witness for C5 at the empty log and a second wallet `"0xDEF"`. -/
theorem c5_record_deposit_event_witness :
    logLookup (save_to_membase [] "0xABC".data "deposit".data
        "auto_yield".data "0.005".data "2025-01-01".data) "0xDEF".data =
      logLookup [] "0xDEF".data :=
  (c5_record_deposit_event [] "2025-01-01".data).2.2.2.2 "0xDEF".data
    (by decide)

/-- C10: the `"Unknown operation"` fallback of the dispatch chain is
unreachable — for every request that passes validation, sanitization maps
the operation name to itself (none of the four names contains a removed
character or surrounding whitespace, and all are far below 1000
characters), so the dispatch selects one of the four handlers; the
`KeyError` path is unreachable too. -/
theorem c10_unknown_operation_unreachable (data : JValue)
    (h : (validate_input data).valid = true) :
    (∃ hd params, dispatch data = .run hd params) ∧
    dispatch data ≠ .unknownOp ∧ dispatch data ≠ .keyError := by
  obtain ⟨kvs, s, rfl, hlk, hs⟩ := validate_valid_structure data h
  have hgo : getItem (sanitize_input (.obj kvs)) "operation".data =
      some (.str (sanitizeStr s)) := by
    simp [sanitize_input, getItem, lookupKey_sanitizeObj, hlk]
  have hrun : ∃ hd, dispatch (.obj kvs) =
      .run hd ((getItem (sanitize_input (.obj kvs)) "params".data).getD
        (.obj [])) := by
    simp only [recognizedOps, List.mem_cons, List.not_mem_nil, or_false] at hs
    rcases hs with rfl | rfl | rfl | rfl
    · refine ⟨.analyze, ?_⟩
      have e1 : jvalIsStr (.str (sanitizeStr "analyze".data))
          "analyze".data = true := by decide
      simp [dispatch, h, hgo, e1]
    · refine ⟨.predict, ?_⟩
      have e1 : jvalIsStr (.str (sanitizeStr "predict".data))
          "analyze".data = false := by decide
      have e2 : jvalIsStr (.str (sanitizeStr "predict".data))
          "predict".data = true := by decide
      simp [dispatch, h, hgo, e1, e2]
    · refine ⟨.optimize, ?_⟩
      have e1 : jvalIsStr (.str (sanitizeStr "optimize".data))
          "analyze".data = false := by decide
      have e2 : jvalIsStr (.str (sanitizeStr "optimize".data))
          "predict".data = false := by decide
      have e3 : jvalIsStr (.str (sanitizeStr "optimize".data))
          "optimize".data = true := by decide
      simp [dispatch, h, hgo, e1, e2, e3]
    · refine ⟨.validate, ?_⟩
      have e1 : jvalIsStr (.str (sanitizeStr "validate".data))
          "analyze".data = false := by decide
      have e2 : jvalIsStr (.str (sanitizeStr "validate".data))
          "predict".data = false := by decide
      have e3 : jvalIsStr (.str (sanitizeStr "validate".data))
          "optimize".data = false := by decide
      have e4 : jvalIsStr (.str (sanitizeStr "validate".data))
          "validate".data = true := by decide
      simp [dispatch, h, hgo, e1, e2, e3, e4]
  obtain ⟨hd, hdis⟩ := hrun
  refine ⟨⟨hd, _, hdis⟩, ?_, ?_⟩ <;>
    (rw [hdis]; intro hcon; exact Outcome.noConfusion hcon)

/-- Witness for C10 at the request `{"operation": "analyze", "params": {}}`. -/
theorem c10_unknown_operation_unreachable_witness :
    (validate_input analyzeRequest).valid = true ∧
    ((∃ hd params, dispatch analyzeRequest = .run hd params) ∧
      dispatch analyzeRequest ≠ .unknownOp ∧
      dispatch analyzeRequest ≠ .keyError) :=
  ⟨rfl, c10_unknown_operation_unreachable analyzeRequest rfl⟩
